import Mathlib

/-!
Verification of the leadops pull reconciliation engine.

This file shallowly embeds the parts of the repository that the claims
touch: the field coercion and diff helpers and the pull decision function
of src/crm/services/pull.py, the pull orchestrator of
src/crm/adapters/airtable/pull.py, the mirror-state ledger writes of
src/src/crm/store/sqlite.py and src/src/crm/adapters/airtable/mirror.py,
the watermark logic of src/crm/services/pull_service.py, and the error
surface of src/crm/adapters/airtable/client.py.

Python values that can appear in remote record fields or local sqlite rows
are modelled by the inductive type PyVal.  The modelled fragment covers
None, strings, ints, exact decimal floats (as rationals), booleans, flat
lists of scalars, and dicts whose entries are strings; IEEE rounding,
exotic float literals (exponent, inf, nan) and naive (offset-free)
datetime strings are outside the fragment, and timestamps rendered back to
text are shown with a +00:00 offset, the only offset the system itself
writes.
-/

namespace LeadOps

/-- Association list lookup, modelling Python dict.get and sqlite lookup
by key.  Takes the first matching entry. -/
def lookupA {α β : Type} [DecidableEq α] : List (α × β) → α → Option β
  | [], _ => none
  | (k, v) :: rest, key => if k = key then some v else lookupA rest key

/-- Association list insert-or-replace, modelling Python dict assignment and
the sqlite upsert (ON CONFLICT DO UPDATE): an existing key keeps its
position, a new key is appended. -/
def upsertA {α β : Type} [DecidableEq α] : List (α × β) → α → β → List (α × β)
  | [], k, v => [(k, v)]
  | (k0, v0) :: rest, k, v =>
    if k0 = k then (k, v) :: rest else (k0, v0) :: upsertA rest k v

/-- Scalar Python values of the modelled fragment. -/
inductive PyScalar : Type where
  | null : PyScalar
  | str (s : String) : PyScalar
  | intv (n : Int) : PyScalar
  | numv (q : ℚ) : PyScalar
  | boolv (b : Bool) : PyScalar
  | dictv (pairs : List (String × String)) : PyScalar
deriving DecidableEq

/-- Python values of the modelled fragment: scalars plus flat lists of
scalars (the shape of Airtable multi-select and linked-record fields). -/
inductive PyVal : Type where
  | null : PyVal
  | str (s : String) : PyVal
  | intv (n : Int) : PyVal
  | numv (q : ℚ) : PyVal
  | boolv (b : Bool) : PyVal
  | dictv (pairs : List (String × String)) : PyVal
  | listv (items : List PyScalar) : PyVal
deriving DecidableEq

/-- Python truthiness of a modelled value. -/
def truthy : PyVal → Bool
  | .null => false
  | .str s => s ≠ ""
  | .intv n => n ≠ 0
  | .numv q => q ≠ 0
  | .boolv b => b
  | .dictv pairs => pairs ≠ ([] : List (String × String))
  | .listv items => items ≠ ([] : List PyScalar)

/-- Single quote character, written by code point to keep string literals
plain. -/
def quoteChar : Char := Char.ofNat 39

/-- Zero-pad a numeral string on the left to the given width. -/
def padZeros (s : String) (k : Nat) : String :=
  String.mk (List.replicate (k - s.length) '0') ++ s

/-- Render a rational the way Python str renders the corresponding float,
for rationals with a power-of-ten denominator (the only ones the modelled
coercions produce): shortest decimal form with at least one fractional
digit. -/
def pyFloatStr (q : ℚ) : String :=
  let sign := if q < 0 then "-" else ""
  let n := q.num.natAbs
  let d := q.den
  if d = 1 then sign ++ toString n ++ ".0"
  else
    match (List.range 41).find? (fun k => (10 ^ k * n) % d = 0) with
    | some k =>
      let digits := 10 ^ k * n / d
      let ip := digits / 10 ^ k
      let fp := digits % 10 ^ k
      sign ++ toString ip ++ "." ++ padZeros (toString fp) k
    | none => sign ++ toString n ++ "/" ++ toString d

/-- Python repr of a dict whose entries are strings. -/
def pyDictRepr (pairs : List (String × String)) : String :=
  let item := fun (p : String × String) =>
    String.singleton quoteChar ++ p.1 ++ String.singleton quoteChar ++ ": " ++
      String.singleton quoteChar ++ p.2 ++ String.singleton quoteChar
  "\x7b" ++ String.intercalate ", " (pairs.map item) ++ "\x7d"

/-- Python repr of a scalar (single-quoted strings without escape handling,
which suffices for the fragment). -/
def pyScalarRepr : PyScalar → String
  | .null => "None"
  | .str s => String.singleton quoteChar ++ s ++ String.singleton quoteChar
  | .intv n => toString n
  | .numv q => pyFloatStr q
  | .boolv b => if b then "True" else "False"
  | .dictv pairs => pyDictRepr pairs

/-- Python repr of a modelled value. -/
def pyRepr : PyVal → String
  | .null => "None"
  | .str s => String.singleton quoteChar ++ s ++ String.singleton quoteChar
  | .intv n => toString n
  | .numv q => pyFloatStr q
  | .boolv b => if b then "True" else "False"
  | .dictv pairs => pyDictRepr pairs
  | .listv items => "[" ++ String.intercalate ", " (items.map pyScalarRepr) ++ "]"

/-- Python str of a modelled value: identity on strings, repr otherwise. -/
def pyStr : PyVal → String
  | .str s => s
  | v => pyRepr v

/-- Replace every occurrence of the character Z by +00:00, the one use of
str.replace in the source, implemented structurally so that proofs can
evaluate it. -/
def replaceZchars : List Char → List Char
  | [] => []
  | c :: rest =>
    if c = 'Z' then '+' :: '0' :: '0' :: ':' :: '0' :: '0' :: replaceZchars rest
    else c :: replaceZchars rest

/-- The cleaned timestamp string of pull._parse_datetime. -/
def replaceZ (s : String) : String :=
  String.mk (replaceZchars s.toList)

/-- ASCII lowercase of one character, the fragment of str.lower the system
compares against. -/
def asciiLowerChar (c : Char) : Char :=
  if 'A' ≤ c ∧ c ≤ 'Z' then Char.ofNat (c.toNat + 32) else c

/-- ASCII lowercase of a string. -/
def asciiLower (s : String) : String :=
  String.mk (s.toList.map asciiLowerChar)

/-- Strip leading and trailing whitespace, modelling the strip Python
applies inside float() and int() string conversion. -/
def charStrip (s : String) : List Char :=
  (((s.toList.dropWhile Char.isWhitespace).reverse.dropWhile Char.isWhitespace).reverse)

/-- Value of two decimal digit characters, when both are digits. -/
def parseTwoDigits (a b : Char) : Option Nat :=
  if a.isDigit ∧ b.isDigit then some ((a.toNat - 48) * 10 + (b.toNat - 48))
  else none

/-- Gregorian leap year test. -/
def isLeapYear (y : Nat) : Bool :=
  (y % 4 = 0 ∧ y % 100 ≠ 0) ∨ y % 400 = 0

/-- Days in a month of the proleptic Gregorian calendar. -/
def daysInMonth (y m : Nat) : Nat :=
  if m = 2 then (if isLeapYear y then 29 else 28)
  else if m = 4 ∨ m = 6 ∨ m = 9 ∨ m = 11 then 30
  else 31

/-- Days from 1970-01-01 to the given civil date (standard era-based
calendar algorithm). -/
def daysFromCivil (y m d : Nat) : Int :=
  let yy : Int := if m ≤ 2 then (y : Int) - 1 else (y : Int)
  let era : Int := yy / 400
  let yoe : Int := yy - era * 400
  let mp : Int := if m > 2 then (m : Int) - 3 else (m : Int) + 9
  let doy : Int := (153 * mp + 2) / 5 + (d : Int) - 1
  let doe : Int := yoe * 365 + yoe / 4 - yoe / 100 + doy
  era * 146097 + doe - 719468

/-- Inverse of daysFromCivil: the civil date of a day count from
1970-01-01. -/
def civilFromDays (z0 : Int) : Int × Nat × Nat :=
  let z := z0 + 719468
  let era : Int := (if z ≥ 0 then z else z - 146096) / 146097
  let doe : Int := z - era * 146097
  let yoe : Int := (doe - doe / 1460 + doe / 36524 - doe / 146096) / 365
  let y : Int := yoe + era * 400
  let doy : Int := doe - (365 * yoe + yoe / 4 - yoe / 100)
  let mp : Int := (5 * doy + 2) / 153
  let d : Int := doy - (153 * mp + 2) / 5 + 1
  let m : Int := if mp < 10 then mp + 3 else mp - 9
  ((if m ≤ 2 then y + 1 else y), m.toNat, d.toNat)

/-- Parse a hyphenated calendar date YYYY-MM-DD with validity checks,
modelling date.fromisoformat on the hyphenated fragment. -/
def parseIsoDate (s : String) : Option (Nat × Nat × Nat) :=
  match s.toList with
  | [y1, y2, y3, y4, h1, m1, m2, h2, d1, d2] =>
    if h1 = '-' ∧ h2 = '-' ∧
        y1.isDigit ∧ y2.isDigit ∧ y3.isDigit ∧ y4.isDigit then
      match parseTwoDigits m1 m2, parseTwoDigits d1 d2 with
      | some m, some d =>
        let y := (y1.toNat - 48) * 1000 + (y2.toNat - 48) * 100 +
          (y3.toNat - 48) * 10 + (y4.toNat - 48)
        if 1 ≤ y ∧ 1 ≤ m ∧ m ≤ 12 ∧ 1 ≤ d ∧ d ≤ daysInMonth y m then
          some (y, m, d)
        else none
      | _, _ => none
    else none
  | _ => none

/-- Parse the fractional-second digits of an ISO timestamp into
microseconds; accepts one to six digits. -/
def parseFraction (cs : List Char) : Option (Nat × List Char) :=
  let digits := cs.takeWhile Char.isDigit
  let rest := cs.dropWhile Char.isDigit
  if 1 ≤ digits.length ∧ digits.length ≤ 6 then
    let v := digits.foldl (fun a c => a * 10 + (c.toNat - 48)) 0
    some (v * 10 ^ (6 - digits.length), rest)
  else none

/-- Parse a UTC-offset suffix of the form +HH:MM or -HH:MM, in seconds. -/
def parseOffset (cs : List Char) : Option Int :=
  match cs with
  | [sgn, h1, h2, c, m1, m2] =>
    if (sgn = '+' ∨ sgn = '-') ∧ c = ':' then
      match parseTwoDigits h1 h2, parseTwoDigits m1 m2 with
      | some h, some m =>
        if h ≤ 23 ∧ m ≤ 59 then
          some ((if sgn = '-' then -1 else 1) * ((h : Int) * 3600 + (m : Int) * 60))
        else none
      | _, _ => none
    else none
  | _ => none

/-- Parse an aware ISO timestamp
YYYY-MM-DD[T ]HH:MM[:SS[.ffffff]]±HH:MM into microseconds since the epoch,
modelling datetime.fromisoformat on the aware fragment the system
exchanges (other forms map to a parse failure). -/
def parseIsoDateTime (s : String) : Option Int :=
  let cs := s.toList
  match parseIsoDate (String.mk (cs.take 10)) with
  | none => none
  | some (y, m, d) =>
    match cs.drop 10 with
    | sep :: h1 :: h2 :: c1 :: mi1 :: mi2 :: rest =>
      if (sep = 'T' ∨ sep = ' ') ∧ c1 = ':' then
        match parseTwoDigits h1 h2, parseTwoDigits mi1 mi2 with
        | some h, some mi =>
          if h ≤ 23 ∧ mi ≤ 59 then
            let secPart : Option (Nat × Nat × List Char) :=
              match rest with
              | c2 :: s1 :: s2 :: rest2 =>
                if c2 = ':' then
                  match parseTwoDigits s1 s2 with
                  | some ss =>
                    if ss ≤ 59 then
                      match rest2 with
                      | '.' :: fr =>
                        match parseFraction fr with
                        | some (micros, rest3) => some (ss, micros, rest3)
                        | none => none
                      | _ => some (ss, 0, rest2)
                    else none
                  | none => none
                else none
              | _ => some (0, 0, rest)
            match secPart with
            | none => none
            | some (ss, micros, restOff) =>
              match parseOffset restOff with
              | none => none
              | some off =>
                some ((daysFromCivil y m d * 86400 +
                  (h : Int) * 3600 + (mi : Int) * 60 + (ss : Int) - off) * 1000000 +
                  (micros : Int))
          else none
        | _, _ => none
      else none
    | _ => none

/-- Normalized comparison values produced by the coercion rules of
src/crm/services/pull.py (_normalize_value): the absent value, strings,
tuples of coerced member strings, floats, booleans, calendar dates, and
aware datetimes (as microseconds since the epoch). -/
inductive NormVal : Type where
  | null : NormVal
  | str (s : String) : NormVal
  | tup (items : List String) : NormVal
  | num (q : ℚ) : NormVal
  | boolv (b : Bool) : NormVal
  | date (y m d : Nat) : NormVal
  | dt (t : Int) : NormVal
deriving DecidableEq

/-- Python str of a scalar: identity on strings, repr otherwise. -/
def pyScalarStr : PyScalar → String
  | .str s => s
  | v => pyScalarRepr v

/-- Python truthiness of a scalar. -/
def scalarTruthy : PyScalar → Bool
  | .null => false
  | .str s => s ≠ ""
  | .intv n => n ≠ 0
  | .numv q => q ≠ 0
  | .boolv b => b
  | .dictv pairs => pairs ≠ ([] : List (String × String))

/-- Python float() applied to a scalar: exact on ints and booleans, decimal
string parsing on strings (sign and at most one dot; exponent and inf
forms are outside the fragment), failure elsewhere. -/
def pyParseFloat (s : String) : Option ℚ :=
  let cs0 := charStrip s
  let signed : ℚ × List Char :=
    match cs0 with
    | '-' :: r => (-1, r)
    | '+' :: r => (1, r)
    | r => (1, r)
  let sign := signed.1
  let cs := signed.2
  let ipart := cs.takeWhile Char.isDigit
  let rest := cs.dropWhile Char.isDigit
  let natOf : List Char → Nat := fun l => l.foldl (fun a c => a * 10 + (c.toNat - 48)) 0
  match rest with
  | [] => if ipart = [] then none else some (sign * ((natOf ipart : ℚ)))
  | '.' :: fpart =>
    if fpart.all Char.isDigit ∧ (ipart ≠ ([] : List Char) ∨ fpart ≠ ([] : List Char)) then
      some (sign * ((natOf ipart : ℚ) + (natOf fpart : ℚ) / ((10 : ℚ) ^ fpart.length)))
    else none
  | _ => none

/-- Python float() on a modelled scalar value. -/
def pyFloatOf : PyScalar → Option ℚ
  | .intv n => some (n : ℚ)
  | .numv q => some q
  | .boolv b => some (if b then 1 else 0)
  | .str s => pyParseFloat s
  | _ => none

/-- Python int() on a modelled value: exact on ints and booleans, truncation
toward zero on floats, strict decimal parsing on strings, failure
elsewhere (the TypeError and ValueError cases of the source collapse to
failure because the callers catch both). -/
def pyIntOf : PyVal → Option Int
  | .intv n => some n
  | .boolv b => some (if b then 1 else 0)
  | .numv q => some (if 0 ≤ q then (q.floor : Int) else -((-q).floor))
  | .str s =>
    let cs0 := charStrip s
    let signed : Int × List Char :=
      match cs0 with
      | '-' :: r => (-1, r)
      | '+' :: r => (1, r)
      | r => (1, r)
    if signed.2 ≠ ([] : List Char) ∧ signed.2.all Char.isDigit then
      some (signed.1 * (signed.2.foldl (fun a c => a * 10 + (c.toNat - 48)) 0 : Nat))
    else none
  | _ => none

/-- Model of pull._parse_date on a scalar: only strings parse, by taking the
substring before any T separator, as in the source. -/
def parse_date_scalar : PyScalar → Option (Nat × Nat × Nat)
  | .str s => parseIsoDate (String.mk (s.toList.takeWhile (fun c => c ≠ 'T')))
  | _ => none

/-- Model of pull._parse_datetime on a scalar: only strings parse, after
replacing a trailing Z by +00:00, as in the source. -/
def parse_datetime_scalar : PyScalar → Option Int
  | .str s => parseIsoDateTime (replaceZ s)
  | _ => none

/-- Model of pull._parse_datetime on a modelled value. -/
def parse_datetime : PyVal → Option Int
  | .str s => parseIsoDateTime (replaceZ s)
  | _ => none

/-- Render a normalized datetime the way Python str renders an aware
datetime carrying the +00:00 offset (the only offset the system writes). -/
def isoDateTimeStr (t : Int) : String :=
  let day := Int.fdiv t 86400000000
  let rem := (t - day * 86400000000).toNat
  let ymd := civilFromDays day
  let secs := rem / 1000000
  let micros := rem % 1000000
  padZeros (toString ymd.1.toNat) 4 ++ "-" ++ padZeros (toString ymd.2.1) 2 ++ "-" ++
    padZeros (toString ymd.2.2) 2 ++ " " ++ padZeros (toString (secs / 3600)) 2 ++ ":" ++
    padZeros (toString (secs % 3600 / 60)) 2 ++ ":" ++ padZeros (toString (secs % 60)) 2 ++
    (if micros = 0 then "" else "." ++ padZeros (toString micros) 6) ++ "+00:00"

/-- Python str of a normalized value, used when list members are coerced to
strings. -/
def normStr : NormVal → String
  | .null => "None"
  | .str s => s
  | .tup items =>
    let quoted := items.map (fun s =>
      String.singleton quoteChar ++ s ++ String.singleton quoteChar)
    (match items with
     | [_] => "(" ++ String.intercalate ", " quoted ++ ",)"
     | _ => "(" ++ String.intercalate ", " quoted ++ ")")
  | .num q => pyFloatStr q
  | .boolv b => if b then "True" else "False"
  | .date y m d =>
    padZeros (toString y) 4 ++ "-" ++ padZeros (toString m) 2 ++ "-" ++ padZeros (toString d) 2
  | .dt t => isoDateTimeStr t

/-- Declared-type dispatch of pull._normalize_value for scalar values that
survived the absence, list and dict branches. -/
def normalizeTyped (v : PyScalar) (ft : Option String) : NormVal :=
  if ft = some "uuid" ∨ ft = some "text" ∨ ft = some "enum" then .str (pyScalarStr v)
  else if ft = some "number" then
    match pyFloatOf v with
    | some q => .num q
    | none => .str (pyScalarStr v)
  else if ft = some "bool" then
    match v with
    | .str s => .boolv (asciiLower s = "true" ∨ asciiLower s = "1" ∨ asciiLower s = "yes")
    | w => .boolv (scalarTruthy w)
  else if ft = some "date" then
    match parse_date_scalar v with
    | some ymd => .date ymd.1 ymd.2.1 ymd.2.2
    | none => .null
  else if ft = some "datetime" then
    match parse_datetime_scalar v with
    | some t => .dt t
    | none => .null
  else .str (pyScalarStr v)

/-- Model of pull._normalize_value on a scalar: None and the empty string
normalize to the absent value, a dict extracts its name entry if present
and otherwise stringifies, everything else goes through the declared-type
dispatch. -/
def normalizeScalar (v : PyScalar) (ft : Option String) : NormVal :=
  match v with
  | .null => .null
  | .dictv pairs =>
    (match lookupA pairs "name" with
     | some n => .str n
     | none => .str (pyDictRepr pairs))
  | .str s => if s = "" then .null else normalizeTyped (.str s) ft
  | w => normalizeTyped w ft

/-- Coerced member strings of a list value: each member is normalized, the
absent results are dropped, and the rest are coerced with str, fusing the
comprehension and the tuple construction of the source. -/
def normMembers (items : List PyScalar) (ft : Option String) : List String :=
  items.filterMap (fun i =>
    match normalizeScalar i ft with
    | .null => none
    | nv => some (normStr nv))

/-- Model of pull._normalize_value. -/
def normalize_value (v : PyVal) (ft : Option String) : NormVal :=
  match v with
  | .null => .null
  | .str s => normalizeScalar (.str s) ft
  | .intv n => normalizeScalar (.intv n) ft
  | .numv q => normalizeScalar (.numv q) ft
  | .boolv b => normalizeScalar (.boolv b) ft
  | .dictv p => normalizeScalar (.dictv p) ft
  | .listv items => .tup (normMembers items ft)

/-- Model of pull._values_equal. -/
def values_equal (l r : PyVal) (ft : Option String) : Bool :=
  normalize_value l ft = normalize_value r ft

/-- A local sqlite row or a remote record field mapping, as an ordered
association list from field name to value. -/
abbrev Row : Type := List (String × PyVal)

/-- Declared schema information for one local field: the declared type and
the required flag (which becomes NOT NULL in the generated DDL). -/
structure FieldSpec : Type where
  ftype : Option String
  required : Bool
deriving DecidableEq

/-- Fields excluded from cross-system diffing (pull.EXCLUDED_FIELDS). -/
def EXCLUDED_FIELDS : List String := ["created_at", "updated_at"]

/-- Model of pull.diff_fields: the local field names, in mapping order,
whose normalized local value differs from the normalized remote value. -/
def diff_fields (local_row : Option Row) (remote_fields : Row)
    (field_map : List (String × String))
    (schema_fields : List (String × FieldSpec)) : List String :=
  match field_map with
  | [] => []
  | (lf, af) :: rest =>
    let tail := diff_fields local_row remote_fields rest schema_fields
    if lf ∈ EXCLUDED_FIELDS then tail
    else
      let ftype := match lookupA schema_fields lf with
        | some sp => sp.ftype
        | none => none
      let lv := match local_row with
        | some row => (lookupA row lf).getD .null
        | none => .null
      let rv := (lookupA remote_fields af).getD .null
      if values_equal lv rv ftype then tail else lf :: tail

/-- A mirror-state ledger row for one (table, external id) key, as stored by
SqliteSession.upsert_mirror_state. -/
structure MirrorRow : Type where
  record_id : Option String
  mirror_version : Int
  mirror_updated_at : PyVal
deriving DecidableEq

/-- Model of pull.has_local_changes: false without a local row; true without
a ledger entry; true when the ledger timestamp does not parse; false when
the ledger timestamp parses but the local one does not; otherwise a strict
comparison. -/
def has_local_changes (local_row : Option Row) (mirror_state : Option MirrorRow) : Bool :=
  match local_row with
  | none => false
  | some row =>
    match mirror_state with
    | none => true
    | some ms =>
      let local_updated_at := parse_datetime ((lookupA row "updated_at").getD .null)
      let mirror_updated_at := parse_datetime ms.mirror_updated_at
      match mirror_updated_at with
      | none => true
      | some mt =>
        match local_updated_at with
        | none => false
        | some lt => mt < lt

/-- Model of pull.has_remote_changes: none (unknown) when the remote
modification signal is missing or unparsable; true when there is no
parsable ledger timestamp; otherwise a strict comparison. -/
def has_remote_changes (remote_modified_at : Option String)
    (mirror_state : Option MirrorRow) : Option Bool :=
  match remote_modified_at with
  | none => none
  | some s =>
    match parseIsoDateTime (replaceZ s) with
    | none => none
    | some rt =>
      let mirror_updated_at :=
        match mirror_state with
        | some ms => parse_datetime ms.mirror_updated_at
        | none => none
      match mirror_updated_at with
      | none => some true
      | some mt => some (mt < rt)

/-- Outcome of the pull decision function. -/
structure PullDecision : Type where
  action : String
  changed_fields : List String
  reason : Option String
deriving DecidableEq

/-- Model of pull.decide_pull_action, the ordered decision table of the
reconciliation engine. -/
def decide_pull_action (local_row : Option Row) (mirror_state : Option MirrorRow)
    (changed_fields : List String) (remote_modified_at : Option String) : PullDecision :=
  if changed_fields.isEmpty then ⟨"skip", [], none⟩
  else
    match local_row with
    | none => ⟨"create", changed_fields, none⟩
    | some _ =>
      let local_changed := has_local_changes local_row mirror_state
      let remote_changed := has_remote_changes remote_modified_at mirror_state
      if remote_changed = some false ∧ local_changed then
        ⟨"skip", changed_fields, some "local_changes"⟩
      else if local_changed ∧ (remote_changed = some true ∨ remote_changed = none) then
        ⟨"conflict", changed_fields, some "local_changes"⟩
      else ⟨"apply", changed_fields, none⟩

/-- Python float() on a modelled value (lists and dicts fail, which the
caller turns into its fallback). -/
def pyFloatOfVal : PyVal → Option ℚ
  | .intv n => some (n : ℚ)
  | .numv q => some q
  | .boolv b => some (if b then 1 else 0)
  | .str s => pyParseFloat s
  | _ => none

/-- Model of airtable pull._convert_value, the per-field type conversion
applied when writing a remote value into a local column. -/
def convert_value (value : PyVal) (spec : Option FieldSpec) : PyVal :=
  match value with
  | .null => .null
  | v =>
    let ft := match spec with
      | some sp => sp.ftype
      | none => none
    if ft = some "uuid" ∨ ft = some "text" ∨ ft = some "enum" then .str (pyStr v)
    else if ft = some "number" then
      match pyFloatOfVal v with
      | some q => .numv q
      | none => .null
    else if ft = some "bool" then
      match v with
      | .str s => .boolv (asciiLower s = "true" ∨ asciiLower s = "1" ∨ asciiLower s = "yes")
      | w => .boolv (truthy w)
    else if ft = some "date" ∨ ft = some "datetime" then
      match v with
      | .str s => .str s
      | w => w
    else v

/-- One remote record: the opaque remote identifier and its field mapping. -/
structure AirtableRecord : Type where
  record_id : String
  fields : Row
deriving DecidableEq

/-- Run summary counters of the pull orchestrator. -/
structure PullSummary : Type where
  scanned : Nat
  skipped : Nat
  applied : Nat
  conflicts : Nat
  created : Nat
  ignored : Nat
deriving DecidableEq

/-- One itemized entry of the pull change log. -/
structure PullChange : Type where
  table : String
  external_id : PyVal
  action : String
  changed_fields : List String
  reason : Option String
deriving DecidableEq

/-- Errors raised inside a pull run: configuration errors (PullError) and
sqlite integrity errors surfaced by a local mutation. -/
inductive PullErrM : Type where
  | pullError (msg : String) : PullErrM
  | integrityError (msg : String) : PullErrM
deriving DecidableEq

/-- The local database visible to the orchestrator: the business tables and
the mirror-state ledger keyed by (table name, external id). -/
structure DB : Type where
  tables : List (String × List Row)
  ledger : List ((String × PyVal) × MirrorRow)
deriving DecidableEq

/-- Model of fetch_one with a single equality predicate on one column: the
first row whose column holds the given value (a missing column reads as
NULL). -/
def fetch_by_field (rows : List Row) (field : String) (v : PyVal) : Option Row :=
  rows.find? (fun r => (lookupA r field).getD .null == v)

/-- Model of airtable pull._update_local: assign each mapped non-timestamp
column its converted remote value and stamp updated_at, on every row
matching the external id.  A NULL assigned to a NOT NULL column raises an
integrity error when at least one row matches, as in sqlite. -/
def update_local (rows : List Row) (extIdField : String)
    (field_map : List (String × String)) (remote_fields : Row)
    (schema_fields : List (String × FieldSpec)) (now : String) :
    Except PullErrM (List Row) :=
  let assignments : List (String × PyVal) :=
    (field_map.filterMap (fun p =>
      if p.1 ∈ ["created_at", "updated_at"] then none
      else some (p.1, convert_value ((lookupA remote_fields p.2).getD .null)
        (lookupA schema_fields p.1)))) ++ [("updated_at", .str now)]
  let extv := (lookupA remote_fields "ExternalId").getD .null
  let hits := rows.filter (fun r => (lookupA r extIdField).getD .null == extv)
  let violates := assignments.any (fun a =>
    a.2 == PyVal.null && (match lookupA schema_fields a.1 with
      | some sp => sp.required
      | none => false))
  if hits ≠ ([] : List Row) ∧ violates then
    .error (.integrityError "NOT NULL constraint failed")
  else
    .ok (rows.map (fun r =>
      if (lookupA r extIdField).getD .null == extv then
        assignments.foldl (fun acc a => upsertA acc a.1 a.2) r
      else r))

/-- Model of airtable pull._insert_local: insert a row holding every mapped
column with its converted remote value, plus created_at and updated_at
stamps when the schema declares them.  A required schema column left NULL
raises an integrity error, as the generated DDL marks it NOT NULL. -/
def insert_local (rows : List Row) (field_map : List (String × String))
    (remote_fields : Row) (schema_fields : List (String × FieldSpec))
    (now : String) : Except PullErrM (List Row) :=
  let cols : List (String × PyVal) :=
    (field_map.map (fun p =>
      (p.1, convert_value ((lookupA remote_fields p.2).getD .null)
        (lookupA schema_fields p.1)))) ++
    (if (lookupA schema_fields "created_at").isSome then [("created_at", PyVal.str now)] else []) ++
    (if (lookupA schema_fields "updated_at").isSome then [("updated_at", PyVal.str now)] else [])
  if schema_fields.all (fun p =>
      !p.2.required || ((lookupA cols p.1).getD .null ≠ PyVal.null)) then
    .ok (rows ++ [cols])
  else .error (.integrityError "NOT NULL constraint failed")

/-- Mirror version written by a pull apply or create: the remote-supplied
MirrorVersion when it converts to an int, else the previous ledger version
(zero without a ledger entry). -/
def pull_mirror_version (remote_fields : Row) (mirror_state : Option MirrorRow) : Int :=
  match (lookupA remote_fields "MirrorVersion").getD .null with
  | .null => (match mirror_state with
    | some m => m.mirror_version
    | none => 0)
  | v =>
    match pyIntOf v with
    | some n => n
    | none => (match mirror_state with
      | some m => m.mirror_version
      | none => 0)

/-- Per-table context of a pull run. -/
structure TableCtx : Type where
  tableName : String
  extIdField : String
  fieldsMap : List (String × String)
  schemaFields : List (String × FieldSpec)
  applyMode : Bool
  acceptRemote : List PyVal
  now : String

/-- Session state while a table is pulled: the rows of the current table,
the ledger, and the accumulated summary and change log. -/
structure RunState : Type where
  rows : List Row
  ledger : List ((String × PyVal) × MirrorRow)
  summary : PullSummary
  changes : List PullChange
deriving DecidableEq

/-- Model of the per-record body of pull_records: count the scan, ignore a
record without a truthy external id, fetch the local row and ledger entry,
diff, decide (the orchestrator passes no remote-modified signal to the
decision), apply the operator override, then count and, in apply mode,
mutate the local row and upsert the ledger. -/
def processRecord (ctx : TableCtx) (st : RunState) (record : AirtableRecord) :
    Except PullErrM RunState :=
  let st1 := { st with summary := { st.summary with scanned := st.summary.scanned + 1 } }
  let external_id := (lookupA record.fields "ExternalId").getD .null
  if truthy external_id = false then
    .ok { st1 with summary := { st1.summary with ignored := st1.summary.ignored + 1 } }
  else
    let local_row := fetch_by_field st1.rows ctx.extIdField external_id
    let mirror_state := lookupA st1.ledger (ctx.tableName, external_id)
    let changed_fields := diff_fields local_row record.fields ctx.fieldsMap ctx.schemaFields
    let decision := decide_pull_action local_row mirror_state changed_fields none
    if decision.action = "skip" then
      .ok { st1 with summary := { st1.summary with skipped := st1.summary.skipped + 1 } }
    else
      let decision :=
        if decision.action = "conflict" ∧ external_id ∈ ctx.acceptRemote then
          (⟨"apply", changed_fields, none⟩ : PullDecision)
        else decision
      let st2 := { st1 with changes := st1.changes ++
        [⟨ctx.tableName, external_id, decision.action, changed_fields, decision.reason⟩] }
      if decision.action = "conflict" then
        .ok { st2 with summary := { st2.summary with conflicts := st2.summary.conflicts + 1 } }
      else if ctx.applyMode then
        -- the ledger upsert that follows the mutation unconditionally in the
        -- source is distributed into the branches
        let newLedger := upsertA st2.ledger (ctx.tableName, external_id)
          ⟨some record.record_id, pull_mirror_version record.fields mirror_state, .str ctx.now⟩
        if decision.action = "create" then
          match insert_local st2.rows ctx.fieldsMap record.fields ctx.schemaFields ctx.now with
          | .error e => .error e
          | .ok rows2 =>
            .ok { st2 with
                  rows := rows2,
                  summary := { st2.summary with created := st2.summary.created + 1 },
                  ledger := newLedger }
        else if decision.action = "apply" then
          match update_local st2.rows ctx.extIdField ctx.fieldsMap record.fields
              ctx.schemaFields ctx.now with
          | .error e => .error e
          | .ok rows2 =>
            .ok { st2 with
                  rows := rows2,
                  summary := { st2.summary with applied := st2.summary.applied + 1 },
                  ledger := newLedger }
        else .ok { st2 with ledger := newLedger }
      else
        if decision.action = "create" then
          .ok { st2 with summary := { st2.summary with created := st2.summary.created + 1 } }
        else if decision.action = "apply" then
          .ok { st2 with summary := { st2.summary with applied := st2.summary.applied + 1 } }
        else .ok st2

/-- Fold of processRecord over the records of one table; the first raised
error aborts the fold. -/
def processTableRecords (ctx : TableCtx) : RunState → List AirtableRecord →
    Except PullErrM RunState
  | st, [] => .ok st
  | st, r :: rs =>
    match processRecord ctx st r with
    | .ok st2 => processTableRecords ctx st2 rs
    | .error e => .error e

/-- Configuration of a pull run.  The remote listing is a capability keyed
by table id; the query field list and incremental filter of the source
only shape the request sent to that capability, so they are absorbed into
it. -/
structure PullConfig : Type where
  mappingTables : List (String × List (String × String))
  schemaTables : List (String × List (String × FieldSpec))
  tableIds : List (String × String)
  recordsFor : String → List AirtableRecord
  applyMode : Bool
  acceptRemote : List PyVal
  now : String

/-- Outcome of a pull run: the summary, change log and database after a
completed run, or the raised error and the database as left behind by the
per-table sessions. -/
inductive PullOutcomeM : Type where
  | ok (summary : PullSummary) (changes : List PullChange) (db : DB) : PullOutcomeM
  | err (e : PullErrM) (db : DB) : PullOutcomeM
deriving DecidableEq

/-- Model of airtable pull._find_external_id_field. -/
def find_external_id_field (fields_map : List (String × String)) : Option String :=
  (fields_map.find? (fun p => p.2 == "ExternalId")).map (fun p => p.1)

/-- Model of the table loop of pull_records.  Each table runs inside one
store session: its record fold either commits rows and ledger together or
rolls the whole table back and surfaces the error.  A mapped table absent
from the database reads as empty, which matches sqlite only when every
mapped table exists, the situation the applied schema guarantees. -/
def pullTables (cfg : PullConfig) :
    DB → PullSummary → List PullChange → List (String × List (String × String)) →
    PullOutcomeM
  | db, summary, changes, [] => .ok summary changes db
  | db, summary, changes, (tableName, fieldsMap) :: rest =>
    let tableId := (lookupA cfg.tableIds tableName).getD ""
    if tableId = "" then
      .err (.pullError ("Missing table id for " ++ tableName ++ " in workspace config.")) db
    else
      match find_external_id_field fieldsMap with
      | none =>
        .err (.pullError ("Table " ++ tableName ++ " mapping must map a field to ExternalId.")) db
      | some extIdField =>
        let schemaFields := (lookupA cfg.schemaTables tableName).getD []
        let records := cfg.recordsFor tableId
        let ctx : TableCtx :=
          ⟨tableName, extIdField, fieldsMap, schemaFields, cfg.applyMode,
            cfg.acceptRemote, cfg.now⟩
        let st0 : RunState := ⟨(lookupA db.tables tableName).getD [], db.ledger, summary, changes⟩
        match processTableRecords ctx st0 records with
        | .ok st =>
          pullTables cfg ⟨upsertA db.tables tableName st.rows, st.ledger⟩ st.summary st.changes rest
        | .error e => .err e db

/-- Model of airtable pull.pull_records. -/
def pull_records (cfg : PullConfig) (db : DB) : PullOutcomeM :=
  pullTables cfg db ⟨0, 0, 0, 0, 0, 0⟩ [] cfg.mappingTables

/-- Database component of a pull outcome. -/
def resultDb : PullOutcomeM → DB
  | .ok _ _ db => db
  | .err _ db => db

/-- Ledger version written by a push of one local row
(mirror._push_table): one more than the stored version, one for a fresh
key. -/
def push_next_version (mirror_state : Option MirrorRow) : Int :=
  match mirror_state with
  | some m => m.mirror_version + 1
  | none => 1

/-- Ledger effect of pushing one local row after the remote upsert
succeeded (a remote failure raises before any ledger write). -/
def push_row_ledger (ledger : List ((String × PyVal) × MirrorRow))
    (tableName : String) (external_id : PyVal) (record_id : String) (now : String) :
    List ((String × PyVal) × MirrorRow) :=
  let next := push_next_version (lookupA ledger (tableName, external_id))
  upsertA ledger (tableName, external_id) ⟨some record_id, next, .str now⟩

/-- Ledger effect of mirror._push_table over the rows of one table, with
the remote record ids abstracted as a capability. -/
def push_table_ledger (ledger : List ((String × PyVal) × MirrorRow))
    (tableName extIdField : String) (rows : List Row)
    (recordIdFor : PyVal → String) (now : String) :
    List ((String × PyVal) × MirrorRow) :=
  rows.foldl (fun led r =>
    let ext := (lookupA r extIdField).getD .null
    push_row_ledger led tableName ext (recordIdFor ext) now) ledger

/-- Persisted sync state: per-table pull watermarks and the push
timestamp. -/
structure SyncState : Type where
  last_pull_at : List (String × String)
  last_push_at : Option String
deriving DecidableEq

/-- Model of the watermark block at the end of pull_service.pull: only a
non-dry run whose summary counted zero conflicts advances the watermark of
every mapped table to now, by updating a copy of the mapping. -/
def pull_advance_watermarks (state : SyncState) (mappingTableNames : List String)
    (applyMode : Bool) (conflicts : Nat) (now : String) : SyncState :=
  if applyMode ∧ conflicts = 0 then
    { state with last_pull_at :=
        mappingTableNames.foldl (fun acc t => upsertA acc t now) state.last_pull_at }
  else state

/-- The exception raised by the Airtable client.  The class declares only a
message (its body is a bare pass), so an instance carries no status code
attribute; the Option field records whether the attribute exists. -/
structure AirtableErrorM : Type where
  message : String
  status_code : Option Int
deriving DecidableEq

/-- Model of the raise in AirtableClient._request for a non-2xx response:
the message interpolates the status, and no status code attribute is
attached. -/
def airtable_request_error (status : Nat) (text : String) : AirtableErrorM :=
  ⟨"Airtable error " ++ toString status ++ ": " ++ text, none⟩

/-- Model of the status check of AirtableClient._request: statuses of 400
and above raise, others return normally. -/
def airtable_request_check (status : Nat) (text : String) : Option AirtableErrorM :=
  if status ≥ 400 then some (airtable_request_error status text) else none

/-- What pull_service.pull surfaces to its caller when the client raised. -/
inductive PullServiceOutcome : Type where
  | authError : PullServiceOutcome
  | serviceError (msg : String) : PullServiceOutcome
  | attributeError (attr : String) : PullServiceOutcome
deriving DecidableEq

/-- Model of the except AirtableError handler in pull_service.pull: it reads
the status code attribute of the exception, so a missing attribute raises
AttributeError out of the handler; a present attribute selects the auth
branch on 401 and 403 and the generic branch otherwise. -/
def handle_airtable_error (exc : AirtableErrorM) : PullServiceOutcome :=
  match exc.status_code with
  | none => .attributeError "status_code"
  | some status =>
    if status = 401 ∨ status = 403 then .authError
    else .serviceError "Airtable auth or service failure"

/-- Claim-worded determination of local_changed, written from the claim
text: true iff the local updated_at parses and is strictly later than the
ledger mirror_updated_at, with the two stated exceptions (true for a local
row without a ledger entry, false when the local timestamp is unparsable).
Under this wording an unparsable ledger timestamp admits no strictly-later
comparison, so it yields false. -/
def local_changed_claim (local_row : Option Row) (mirror_state : Option MirrorRow) : Bool :=
  match local_row with
  | none => false
  | some row =>
    match mirror_state with
    | none => true
    | some ms =>
      match parse_datetime ((lookupA row "updated_at").getD .null) with
      | none => false
      | some lt =>
        match parse_datetime ms.mirror_updated_at with
        | some mt => decide (mt < lt)
        | none => false

/-- Amended determination of local_changed, written from the corrected claim
wording: true when there is no ledger entry, or the ledger
mirror_updated_at does not parse, or both timestamps parse with the local
one strictly later; false otherwise (in particular when the ledger
timestamp parses but the local one does not). -/
def local_changed_amended (local_row : Option Row) (mirror_state : Option MirrorRow) : Bool :=
  match local_row with
  | none => false
  | some row =>
    match mirror_state with
    | none => true
    | some ms =>
      let lu := parse_datetime ((lookupA row "updated_at").getD .null)
      let mu := parse_datetime ms.mirror_updated_at
      mu.isNone || (match mu, lu with
        | some mt, some lt => decide (mt < lt)
        | _, _ => false)

/-- The summary counters partition the scanned records. -/
def summaryPartitioned (s : PullSummary) : Prop :=
  s.scanned = s.skipped + s.applied + s.created + s.conflicts + s.ignored

/-- Widget schema used by the concrete runs: external id and timestamps
required, name optional. -/
def wSchema : List (String × FieldSpec) :=
  [("widget_id", ⟨some "uuid", true⟩), ("name", ⟨some "text", false⟩),
   ("created_at", ⟨some "datetime", true⟩), ("updated_at", ⟨some "datetime", true⟩)]

/-- Widget schema variant with a required name column. -/
def wSchemaReq : List (String × FieldSpec) :=
  [("widget_id", ⟨some "uuid", true⟩), ("name", ⟨some "text", true⟩),
   ("created_at", ⟨some "datetime", true⟩), ("updated_at", ⟨some "datetime", true⟩)]

/-- Widget field mapping used by the concrete runs. -/
def wMap : List (String × String) := [("widget_id", "ExternalId"), ("name", "Name")]

/-- Remote record of the C2 failing input: it carries a parsable
remote-modified timestamp equal to the ledger timestamp. -/
def c2rec : AirtableRecord :=
  ⟨"recA", [("ExternalId", .str "w1"), ("Name", .str "remote-name"),
    ("AirtableModifiedAt", .str "2026-01-02T00:00:00.000Z"), ("MirrorVersion", .intv 2)]⟩

/-- Local row of the C2 failing input: updated strictly after the ledger
timestamp. -/
def c2row : Row :=
  [("widget_id", .str "w1"), ("name", .str "local-name"),
   ("created_at", .str "2026-01-01T00:00:00+00:00"),
   ("updated_at", .str "2026-01-03T00:00:00+00:00")]

/-- Ledger entry of the C2 failing input. -/
def c2mirror : MirrorRow := ⟨some "recA", 5, .str "2026-01-02T00:00:00+00:00"⟩

/-- Database of the C2 failing input. -/
def c2db : DB := ⟨[("widgets", [c2row])], [(("widgets", .str "w1"), c2mirror)]⟩

/-- Pull configuration of the C2 failing input, in apply mode. -/
def c2cfg : PullConfig :=
  ⟨[("widgets", wMap)], [("widgets", wSchema)], [("widgets", "tbl1")],
    fun i => if i = "tbl1" then [c2rec] else [], true, [], "2026-02-01T00:00:00+00:00"⟩

/-- First remote record of the C5 run: a create that succeeds. -/
def c5rec1 : AirtableRecord := ⟨"recC", [("ExternalId", .str "w1"), ("Name", .str "x")]⟩

/-- Second remote record of the C5 run: a create that violates the NOT NULL
constraint on the required name column. -/
def c5rec2 : AirtableRecord := ⟨"recD", [("ExternalId", .str "w2")]⟩

/-- Initial database of the C5 run: the widgets table exists and is empty. -/
def c5db : DB := ⟨[("widgets", [])], []⟩

/-- Pull configuration of the C5 run over both records. -/
def c5cfg : PullConfig :=
  ⟨[("widgets", wMap)], [("widgets", wSchemaReq)], [("widgets", "tbl1")],
    fun i => if i = "tbl1" then [c5rec1, c5rec2] else [], true, [], "2026-02-01T00:00:00+00:00"⟩

/-- Pull configuration of the C5 run over the first record only. -/
def c5cfgFirst : PullConfig :=
  ⟨[("widgets", wMap)], [("widgets", wSchemaReq)], [("widgets", "tbl1")],
    fun i => if i = "tbl1" then [c5rec1] else [], true, [], "2026-02-01T00:00:00+00:00"⟩

/-- Row committed by the first C5 record when it is pulled alone. -/
def c5rowAfter : Row :=
  [("widget_id", .str "w1"), ("name", .str "x"),
   ("created_at", .str "2026-02-01T00:00:00+00:00"),
   ("updated_at", .str "2026-02-01T00:00:00+00:00")]

/-- Database committed by pulling the first C5 record alone. -/
def c5dbAfterFirst : DB :=
  ⟨[("widgets", [c5rowAfter])],
   [(("widgets", .str "w1"), ⟨some "recC", 0, .str "2026-02-01T00:00:00+00:00"⟩)]⟩

/-- Local row of the C6 run: unchanged since the last sync, so the remote
version is applied. -/
def c6row : Row :=
  [("widget_id", .str "w1"), ("name", .str "local-name"),
   ("created_at", .str "2026-01-01T00:00:00+00:00"),
   ("updated_at", .str "2026-01-01T00:00:00+00:00")]

/-- Database of the C6 run: the ledger stores mirror_version 5. -/
def c6db : DB := ⟨[("widgets", [c6row])], [(("widgets", .str "w1"), ⟨some "recA", 5, .str "2026-01-02T00:00:00+00:00"⟩)]⟩

/-- Pull configuration of the C6 run: the remote record carries
MirrorVersion 2, smaller than the stored 5. -/
def c6cfg : PullConfig :=
  ⟨[("widgets", wMap)], [("widgets", wSchema)], [("widgets", "tbl1")],
    fun i => if i = "tbl1" then [c2rec] else [], true, [], "2026-02-01T00:00:00+00:00"⟩

/-- Row of the C6 run after the remote values are applied. -/
def c6rowAfter : Row :=
  [("widget_id", .str "w1"), ("name", .str "remote-name"),
   ("created_at", .str "2026-01-01T00:00:00+00:00"),
   ("updated_at", .str "2026-02-01T00:00:00+00:00")]

/-- Database of the C6 run after the pull: the ledger version dropped from
5 to 2. -/
def c6dbAfter : DB :=
  ⟨[("widgets", [c6rowAfter])],
   [(("widgets", .str "w1"), ⟨some "recA", 2, .str "2026-02-01T00:00:00+00:00"⟩)]⟩

/-- Dry-run pull configuration over one creatable record. -/
def c8cfg : PullConfig :=
  ⟨[("widgets", wMap)], [("widgets", wSchemaReq)], [("widgets", "tbl1")],
    fun i => if i = "tbl1" then [c5rec1] else [], false, [], "2026-02-01T00:00:00+00:00"⟩

theorem lookupA_upsertA_self {α β : Type} [DecidableEq α] (l : List (α × β)) (k : α) (v : β) :
    lookupA (upsertA l k v) k = some v := by
  induction l with
  | nil => simp [upsertA, lookupA]
  | cons p rest ih =>
    obtain ⟨k0, v0⟩ := p
    by_cases h : k0 = k
    · simp [upsertA, lookupA, h]
    · simp [upsertA, lookupA, h, ih]

theorem lookupA_upsertA_ne {α β : Type} [DecidableEq α] (l : List (α × β)) (k k2 : α) (v : β)
    (h : k2 ≠ k) : lookupA (upsertA l k v) k2 = lookupA l k2 := by
  induction l with
  | nil =>
    have hk : ¬k = k2 := fun he => h he.symm
    simp [upsertA, lookupA, hk]
  | cons p rest ih =>
    obtain ⟨k0, v0⟩ := p
    by_cases h0 : k0 = k
    · subst h0
      have hk : ¬k0 = k2 := fun he => h he.symm
      simp [upsertA, lookupA, hk]
    · simp only [upsertA, if_neg h0, lookupA]
      by_cases h2 : k0 = k2
      · simp [h2]
      · simp [h2, ih]

theorem upsertA_lookupA_eq {α β : Type} [DecidableEq α] (l : List (α × β)) (k : α) (v : β)
    (h : lookupA l k = some v) : upsertA l k v = l := by
  induction l with
  | nil => simp [lookupA] at h
  | cons p rest ih =>
    obtain ⟨k0, v0⟩ := p
    by_cases h0 : k0 = k
    · subst h0
      have hv : v = v0 := by
        simp [lookupA] at h
        exact h.symm
      subst hv
      simp [upsertA]
    · simp only [lookupA, if_neg h0] at h
      simp [upsertA, h0, ih h]

theorem lookupA_foldl_upsertA (names : List String) (acc : List (String × String))
    (now t : String) :
    lookupA (names.foldl (fun a u => upsertA a u now) acc) t =
      if t ∈ names then some now else lookupA acc t := by
  induction names generalizing acc with
  | nil => simp
  | cons u rest ih =>
    simp only [List.foldl_cons, ih, List.mem_cons]
    by_cases hmem : t ∈ rest
    · simp [hmem]
    · by_cases heq : t = u
      · subst heq
        simp [hmem, lookupA_upsertA_self]
      · simp [hmem, heq, lookupA_upsertA_ne acc u t now heq]

/-- C3: after a pull in apply mode whose summary counted zero conflicts, the
watermark of every mapped table reads the current time; a dry run or a run
with a conflict leaves the sync state untouched. -/
theorem c3_watermark_advance (state : SyncState) (names : List String)
    (applyMode : Bool) (conflicts : Nat) (now : String) :
    (applyMode = true → conflicts = 0 →
      ∀ t ∈ names,
        lookupA (pull_advance_watermarks state names applyMode conflicts now).last_pull_at t =
          some now)
  ∧ ((applyMode = false ∨ conflicts ≠ 0) →
      pull_advance_watermarks state names applyMode conflicts now = state) := by
  constructor
  · intro ha hc t ht
    simp [pull_advance_watermarks, ha, hc, lookupA_foldl_upsertA, ht]
  · intro h
    rcases h with h | h
    · simp [pull_advance_watermarks, h]
    · simp [pull_advance_watermarks, h]

theorem c3_watermark_advance_witness :
    lookupA (pull_advance_watermarks ⟨[("widgets", "old")], none⟩ ["widgets", "people"]
      true 0 "2026-02-01T00:00:00+00:00").last_pull_at "people" =
      some "2026-02-01T00:00:00+00:00" :=
  (c3_watermark_advance ⟨[("widgets", "old")], none⟩ ["widgets", "people"]
    true 0 "2026-02-01T00:00:00+00:00").1 rfl rfl "people" (by decide)

/-- C7: a 401 response makes the client raise an error that carries no
status code attribute, so the pull handler reading that attribute raises
AttributeError instead of the distinguished auth error; a 500 response
takes the very same path, so nothing distinguishes the two. -/
theorem c7_auth_not_distinguished :
    airtable_request_check 401 "unauthorized" = some (airtable_request_error 401 "unauthorized")
  ∧ handle_airtable_error (airtable_request_error 401 "unauthorized") =
      .attributeError "status_code"
  ∧ handle_airtable_error (airtable_request_error 401 "unauthorized") ≠ .authError
  ∧ handle_airtable_error (airtable_request_error 500 "boom") =
      handle_airtable_error (airtable_request_error 401 "unauthorized") := by
  refine ⟨by decide, by decide, by decide, by decide⟩

/-- C1: the decision table of decide_pull_action, with local_changed
characterized as in the amended claim: an empty change set always skips; a
change set without a local row creates; otherwise local changes with
definitely-unchanged remote skip with reason local_changes, local changes
with changed or unknown remote conflict with reason local_changes, and no
local changes apply.  The amended local_changed agrees with the code. -/
theorem c1_decision_table (lr : Option Row) (ms : Option MirrorRow)
    (cf : List String) (rm : Option String) :
    local_changed_amended lr ms = has_local_changes lr ms
  ∧ (cf = [] → decide_pull_action lr ms cf rm = ⟨"skip", [], none⟩)
  ∧ (cf ≠ [] → lr = none → decide_pull_action lr ms cf rm = ⟨"create", cf, none⟩)
  ∧ (cf ≠ [] → lr ≠ none →
      ((local_changed_amended lr ms = true ∧ has_remote_changes rm ms = some false) →
        decide_pull_action lr ms cf rm = ⟨"skip", cf, some "local_changes"⟩)
    ∧ ((local_changed_amended lr ms = true ∧ has_remote_changes rm ms ≠ some false) →
        decide_pull_action lr ms cf rm = ⟨"conflict", cf, some "local_changes"⟩)
    ∧ (local_changed_amended lr ms = false →
        decide_pull_action lr ms cf rm = ⟨"apply", cf, none⟩)) := by
  have hlc : local_changed_amended lr ms = has_local_changes lr ms := by
    cases lr with
    | none => rfl
    | some row =>
      cases ms with
      | none => rfl
      | some m =>
        simp only [local_changed_amended, has_local_changes]
        cases hmu : parse_datetime m.mirror_updated_at with
        | none => simp
        | some mt =>
          cases hlu : parse_datetime ((lookupA row "updated_at").getD .null) with
          | none => simp
          | some lt => simp
  refine ⟨hlc, ?_, ?_, ?_⟩
  · intro h
    subst h
    simp [decide_pull_action]
  · intro hcf hlr
    subst hlr
    have hne : cf.isEmpty = false := by
      cases cf with
      | nil => exact absurd rfl hcf
      | cons a l => rfl
    simp [decide_pull_action, hne]
  · intro hcf hlr
    obtain ⟨row, rfl⟩ : ∃ row, lr = some row := by
      cases lr with
      | none => exact absurd rfl hlr
      | some row => exact ⟨row, rfl⟩
    have hne : cf.isEmpty = false := by
      cases cf with
      | nil => exact absurd rfl hcf
      | cons a l => rfl
    rw [hlc]
    refine ⟨?_, ?_, ?_⟩
    · intro h
      obtain ⟨h1, h2⟩ := h
      simp [decide_pull_action, hne, h1, h2]
    · intro h
      obtain ⟨h1, h2⟩ := h
      have hrc : has_remote_changes rm ms = some true ∨ has_remote_changes rm ms = none := by
        cases hr : has_remote_changes rm ms with
        | none => exact Or.inr rfl
        | some b =>
          cases b with
          | false => exact absurd hr h2
          | true => exact Or.inl rfl
      have hnotfirst : ¬(has_remote_changes rm ms = some false ∧ has_local_changes (some row) ms) := by
        intro hx
        exact h2 hx.1
      simp only [decide_pull_action, hne, Bool.false_eq_true, if_false]
      rw [if_neg hnotfirst, if_pos ⟨h1, hrc⟩]
    · intro h
      have hnotfirst : ¬(has_remote_changes rm ms = some false ∧ has_local_changes (some row) ms) := by
        intro hx
        rw [h] at hx
        exact Bool.false_ne_true hx.2
      have hnotsecond : ¬(has_local_changes (some row) ms ∧
          (has_remote_changes rm ms = some true ∨ has_remote_changes rm ms = none)) := by
        intro hx
        rw [h] at hx
        exact Bool.false_ne_true hx.1
      simp only [decide_pull_action, hne, Bool.false_eq_true, if_false]
      rw [if_neg hnotfirst, if_neg hnotsecond]

theorem c1_decision_table_witness :
    decide_pull_action (some [("updated_at", PyVal.str "2026-01-03T00:00:00+00:00")])
      (some ⟨none, 1, PyVal.str "2026-01-02T00:00:00+00:00"⟩) ["name"] none =
      ⟨"conflict", ["name"], some "local_changes"⟩ :=
  (((c1_decision_table (some [("updated_at", PyVal.str "2026-01-03T00:00:00+00:00")])
      (some ⟨none, 1, PyVal.str "2026-01-02T00:00:00+00:00"⟩) ["name"] none).2.2.2
    (by decide) (by decide)).2.1 ⟨by decide, by decide⟩)

/-- C1 counterexample: with a ledger entry whose mirror_updated_at does not
parse and a local updated_at that does not parse, the claim wording makes
local_changed false and demands apply, but the code reports a conflict. -/
theorem c1_claim_counterexample :
    local_changed_claim (some [("updated_at", PyVal.str "not-a-date")])
        (some ⟨none, 1, PyVal.str "not-a-date"⟩) = false
  ∧ decide_pull_action (some [("updated_at", PyVal.str "not-a-date")])
        (some ⟨none, 1, PyVal.str "not-a-date"⟩) ["name"] none =
      ⟨"conflict", ["name"], some "local_changes"⟩
  ∧ ("conflict" : String) ≠ "apply" := by
  refine ⟨by decide, by decide, by decide⟩

/-- C4 (amended): a list value normalizes to the order-preserving tuple of
its coerced member strings, so equality of normalized list values, and the
diff verdict of a list-valued field, coincide with equality of the coerced
member sequences, order included. -/
theorem c4_list_diff_orders (ft : Option String) (req : Bool) (fname aname : String)
    (v w : List PyScalar) (h : fname ∉ EXCLUDED_FIELDS) :
    values_equal (PyVal.listv v) (PyVal.listv w) ft =
      decide (normMembers v ft = normMembers w ft)
  ∧ diff_fields (some [(fname, PyVal.listv v)]) [(aname, PyVal.listv w)]
      [(fname, aname)] [(fname, ⟨ft, req⟩)] =
      (if normMembers v ft = normMembers w ft then [] else [fname]) := by
  have hv : values_equal (PyVal.listv v) (PyVal.listv w) ft =
      decide (normMembers v ft = normMembers w ft) := by
    simp [values_equal, normalize_value]
  refine ⟨hv, ?_⟩
  have hd : diff_fields (some [(fname, PyVal.listv v)]) [(aname, PyVal.listv w)]
      [(fname, aname)] [(fname, ⟨ft, req⟩)] =
      (if values_equal (PyVal.listv v) (PyVal.listv w) ft then [] else [fname]) := by
    simp [diff_fields, lookupA, h]
  rw [hd, hv]
  by_cases he : normMembers v ft = normMembers w ft
  · simp [he]
  · simp [he]

theorem c4_list_diff_orders_witness :
    diff_fields (some [("tags", PyVal.listv [.str "a"])]) [("Tags", PyVal.listv [.str "a"])]
      [("tags", "Tags")] [("tags", ⟨some "text", true⟩)] = [] := by
  have h := (c4_list_diff_orders (some "text") true "tags" "Tags"
    [.str "a"] [.str "a"] (by decide)).2
  rw [h, if_pos rfl]

/-- C4 counterexample: two lists whose coerced members form the same set in
a different order (a permutation) are reported as a change by diff_fields,
because normalization preserves member order. -/
theorem c4_counterexample :
    (normMembers [.str "a", .str "b"] (some "text")).Perm
      (normMembers [.str "b", .str "a"] (some "text"))
  ∧ diff_fields (some [("tags", PyVal.listv [.str "a", .str "b"])])
      [("Tags", PyVal.listv [.str "b", .str "a"])] [("tags", "Tags")]
      [("tags", ⟨some "text", false⟩)] = ["tags"] := by
  constructor
  · have h1 : normMembers [.str "a", .str "b"] (some "text") = ["a", "b"] := by decide
    have h2 : normMembers [.str "b", .str "a"] (some "text") = ["b", "a"] := by decide
    rw [h1, h2]
    exact List.Perm.swap "b" "a" []
  · decide

/-- C2: at the failing input the orchestrator classifies the record as a
conflict, because it passes no remote-modified signal to the decision,
even though the record carries a parsable AirtableModifiedAt not after the
ledger timestamp, the local row changed after the ledger timestamp, and
the decision function given that signal returns skip with reason
local_changes, as both the spec and the decision-function tests demand. -/
theorem c2_conflict_instead_of_skip :
    pull_records c2cfg c2db =
      .ok ⟨1, 0, 0, 1, 0, 0⟩
        [⟨"widgets", .str "w1", "conflict", ["name"], some "local_changes"⟩] c2db
  ∧ has_remote_changes (some "2026-01-02T00:00:00.000Z") (some c2mirror) = some false
  ∧ has_local_changes (some c2row) (some c2mirror) = true
  ∧ decide_pull_action (some c2row) (some c2mirror) ["name"]
      (some "2026-01-02T00:00:00.000Z") = ⟨"skip", ["name"], some "local_changes"⟩ := by
  refine ⟨by decide, by decide, by decide, by decide⟩

theorem pull_mirror_version_eq (rf : Row) (m : Option MirrorRow) :
    pull_mirror_version rf m =
      match pyIntOf ((lookupA rf "MirrorVersion").getD .null) with
      | some n => n
      | none =>
        match m with
        | some mr => mr.mirror_version
        | none => 0 := by
  unfold pull_mirror_version
  generalize (lookupA rf "MirrorVersion").getD .null = v
  cases v <;> rfl

/-- C6 (amended): a push writes exactly the previous ledger version plus one
(one for a fresh key); a pull create or apply writes the previous version
unchanged when the remote MirrorVersion is absent, and whenever the
written version differs from the previous one it is the int conversion of
the remote-supplied MirrorVersion, which nothing constrains to be larger. -/
theorem c6_mirror_version_writes (led : List ((String × PyVal) × MirrorRow))
    (t : String) (e : PyVal) (rid now : String) (rf : Row) (m : Option MirrorRow) :
    lookupA (push_row_ledger led t e rid now) (t, e) =
      some ⟨some rid, push_next_version (lookupA led (t, e)), .str now⟩
  ∧ push_next_version (lookupA led (t, e)) =
      (match lookupA led (t, e) with
       | some mr => mr.mirror_version
       | none => 0) + 1
  ∧ ((lookupA rf "MirrorVersion").getD .null = PyVal.null →
      pull_mirror_version rf m =
        (match m with
         | some mr => mr.mirror_version
         | none => 0))
  ∧ (pull_mirror_version rf m ≠
        (match m with
         | some mr => mr.mirror_version
         | none => 0) →
      pyIntOf ((lookupA rf "MirrorVersion").getD .null) = some (pull_mirror_version rf m)) := by
  refine ⟨?_, ?_, ?_, ?_⟩
  · simp [push_row_ledger, lookupA_upsertA_self]
  · cases h : lookupA led (t, e) with
    | none => simp [push_next_version, h]
    | some mr => simp [push_next_version, h]
  · intro h
    rw [pull_mirror_version_eq, h]
    rfl
  · intro h
    rw [pull_mirror_version_eq] at h ⊢
    cases hi : pyIntOf ((lookupA rf "MirrorVersion").getD .null) with
    | some n => rfl
    | none =>
      rw [hi] at h
      exact absurd rfl h

theorem c6_mirror_version_writes_witness :
    lookupA (push_row_ledger [] "widgets" (.str "w9") "rec9" "2026-02-01T00:00:00+00:00")
      ("widgets", .str "w9") =
      some ⟨some "rec9", 1, .str "2026-02-01T00:00:00+00:00"⟩
  ∧ pull_mirror_version ([] : Row) (some ⟨none, 7, PyVal.null⟩) = 7
  ∧ pyIntOf ((lookupA [("MirrorVersion", PyVal.intv 3)] "MirrorVersion").getD .null) =
      some (pull_mirror_version [("MirrorVersion", PyVal.intv 3)] (some ⟨none, 7, PyVal.null⟩)) := by
  refine ⟨?_, ?_, ?_⟩
  · have h := (c6_mirror_version_writes [] "widgets" (.str "w9") "rec9"
      "2026-02-01T00:00:00+00:00" [] none).1
    rw [h]
    rfl
  · exact (c6_mirror_version_writes [] "t" (.str "x") "r" "n" ([] : Row)
      (some ⟨none, 7, PyVal.null⟩)).2.2.1 rfl
  · exact (c6_mirror_version_writes [] "t" (.str "x") "r" "n"
      [("MirrorVersion", PyVal.intv 3)] (some ⟨none, 7, PyVal.null⟩)).2.2.2 (by decide)

/-- C6 counterexample: a pull apply over a ledger entry with version 5
adopts the remote-supplied MirrorVersion 2: the ledger version decreases
under a core ledger-writing operation. -/
theorem c6_counterexample :
    pull_records c6cfg c6db =
      .ok ⟨1, 0, 1, 0, 0, 0⟩ [⟨"widgets", .str "w1", "apply", ["name"], none⟩] c6dbAfter
  ∧ lookupA c6db.ledger ("widgets", .str "w1") =
      some ⟨some "recA", 5, .str "2026-01-02T00:00:00+00:00"⟩
  ∧ lookupA c6dbAfter.ledger ("widgets", .str "w1") =
      some ⟨some "recA", 2, .str "2026-02-01T00:00:00+00:00"⟩
  ∧ (2 : Int) < 5 := by
  refine ⟨by decide, by decide, by decide, by decide⟩

/-- C10: a record whose ExternalId value is missing or falsy is counted as
scanned and ignored, and the run state changes in no other way: no diff,
no classification, no change-log entry, no row mutation and no ledger
write, in apply mode and in dry-run alike. -/
theorem c10_falsy_external_id_ignored (ctx : TableCtx) (st : RunState)
    (record : AirtableRecord)
    (h : truthy ((lookupA record.fields "ExternalId").getD .null) = false) :
    processRecord ctx st record =
      .ok { st with summary := { st.summary with
            scanned := st.summary.scanned + 1,
            ignored := st.summary.ignored + 1 } } := by
  simp [processRecord, h]

theorem c10_falsy_external_id_ignored_witness :
    processRecord ⟨"widgets", "widget_id", wMap, wSchema, true, [], "now"⟩
      ⟨[], [], ⟨0, 0, 0, 0, 0, 0⟩, []⟩ ⟨"r1", [("ExternalId", .str "")]⟩ =
      .ok ⟨[], [], ⟨1, 0, 0, 0, 0, 1⟩, []⟩
  ∧ processRecord ⟨"widgets", "widget_id", wMap, wSchema, true, [], "now"⟩
      ⟨[], [], ⟨0, 0, 0, 0, 0, 0⟩, []⟩ ⟨"r2", []⟩ =
      .ok ⟨[], [], ⟨1, 0, 0, 0, 0, 1⟩, []⟩ := by
  constructor
  · rw [c10_falsy_external_id_ignored ⟨"widgets", "widget_id", wMap, wSchema, true, [], "now"⟩
      ⟨[], [], ⟨0, 0, 0, 0, 0, 0⟩, []⟩ ⟨"r1", [("ExternalId", .str "")]⟩ (by decide)]
  · rw [c10_falsy_external_id_ignored ⟨"widgets", "widget_id", wMap, wSchema, true, [], "now"⟩
      ⟨[], [], ⟨0, 0, 0, 0, 0, 0⟩, []⟩ ⟨"r2", []⟩ (by decide)]

theorem decide_action_cases (lr : Option Row) (ms : Option MirrorRow)
    (cf : List String) (rm : Option String) :
    (decide_pull_action lr ms cf rm).action = "skip" ∨
    (decide_pull_action lr ms cf rm).action = "create" ∨
    (decide_pull_action lr ms cf rm).action = "conflict" ∨
    (decide_pull_action lr ms cf rm).action = "apply" := by
  simp only [decide_pull_action]
  split
  · exact Or.inl rfl
  · split
    · exact Or.inr (Or.inl rfl)
    · split
      · exact Or.inl rfl
      · split
        · exact Or.inr (Or.inr (Or.inl rfl))
        · exact Or.inr (Or.inr (Or.inr rfl))

theorem processRecord_partition (ctx : TableCtx) (st : RunState) (record : AirtableRecord)
    (st2 : RunState) (h : processRecord ctx st record = .ok st2)
    (hp : summaryPartitioned st.summary) : summaryPartitioned st2.summary := by
  simp only [processRecord] at h
  set eid := (lookupA record.fields "ExternalId").getD PyVal.null with heid
  set lr := fetch_by_field st.rows ctx.extIdField eid with hlr
  set ms := lookupA st.ledger (ctx.tableName, eid) with hms
  set cfv := diff_fields lr record.fields ctx.fieldsMap ctx.schemaFields with hcfv
  have hact := decide_action_cases lr ms cfv none
  repeat' split at h
  all_goals try exact Except.noConfusion h
  all_goals simp only [Except.ok.injEq] at h
  all_goals subst h
  all_goals simp only [summaryPartitioned] at hp ⊢
  all_goals try omega
  all_goals simp_all

theorem processTableRecords_partition (ctx : TableCtx) (records : List AirtableRecord) :
    ∀ st st2, processTableRecords ctx st records = .ok st2 →
      summaryPartitioned st.summary → summaryPartitioned st2.summary := by
  induction records with
  | nil =>
    intro st st2 h hp
    simp only [processTableRecords, Except.ok.injEq] at h
    subst h
    exact hp
  | cons r rs ih =>
    intro st st2 h hp
    simp only [processTableRecords] at h
    cases heq : processRecord ctx st r with
    | ok stm =>
      rw [heq] at h
      exact ih stm st2 h (processRecord_partition ctx st r stm heq hp)
    | error e =>
      rw [heq] at h
      exact Except.noConfusion h

theorem pullTables_partition (cfg : PullConfig)
    (tables : List (String × List (String × String))) :
    ∀ db s c s2 c2 db2, summaryPartitioned s →
      pullTables cfg db s c tables = .ok s2 c2 db2 → summaryPartitioned s2 := by
  induction tables with
  | nil =>
    intro db s c s2 c2 db2 hp h
    simp only [pullTables, PullOutcomeM.ok.injEq] at h
    rw [← h.1]
    exact hp
  | cons t rest ih =>
    intro db s c s2 c2 db2 hp h
    simp only [pullTables] at h
    split at h
    · exact PullOutcomeM.noConfusion h
    · split at h
      · exact PullOutcomeM.noConfusion h
      · split at h
        · rename_i st heq
          exact ih _ _ _ _ _ _ (processTableRecords_partition _ _ _ _ heq hp) h
        · exact PullOutcomeM.noConfusion h

/-- C9: the counters of a completed pull run partition the scanned records:
each scanned record increments exactly one of skipped, applied, created,
conflicts and ignored, so their sum equals scanned. -/
theorem c9_summary_partition (cfg : PullConfig) (db : DB) (s : PullSummary)
    (c : List PullChange) (db2 : DB) (h : pull_records cfg db = .ok s c db2) :
    s.scanned = s.skipped + s.applied + s.created + s.conflicts + s.ignored := by
  unfold pull_records at h
  exact pullTables_partition cfg cfg.mappingTables db ⟨0, 0, 0, 0, 0, 0⟩ [] s c db2
    (by simp [summaryPartitioned]) h

theorem c9_summary_partition_witness :
    (⟨1, 0, 0, 0, 1, 0⟩ : PullSummary).scanned =
      (⟨1, 0, 0, 0, 1, 0⟩ : PullSummary).skipped +
      (⟨1, 0, 0, 0, 1, 0⟩ : PullSummary).applied +
      (⟨1, 0, 0, 0, 1, 0⟩ : PullSummary).created +
      (⟨1, 0, 0, 0, 1, 0⟩ : PullSummary).conflicts +
      (⟨1, 0, 0, 0, 1, 0⟩ : PullSummary).ignored :=
  c9_summary_partition c5cfgFirst c5db ⟨1, 0, 0, 0, 1, 0⟩
    [⟨"widgets", .str "w1", "create", ["widget_id", "name"], none⟩] c5dbAfterFirst
    (by decide)

theorem processRecord_dry (ctx : TableCtx) (st : RunState) (r : AirtableRecord)
    (hdry : ctx.applyMode = false) :
    ∃ st2, processRecord ctx st r = .ok st2 ∧ st2.rows = st.rows ∧ st2.ledger = st.ledger := by
  simp only [processRecord, hdry, Bool.false_eq_true, if_false]
  repeat' split
  all_goals exact ⟨_, rfl, rfl, rfl⟩

theorem processTableRecords_dry (ctx : TableCtx) (hdry : ctx.applyMode = false)
    (records : List AirtableRecord) :
    ∀ st, ∃ st2, processTableRecords ctx st records = .ok st2 ∧
      st2.rows = st.rows ∧ st2.ledger = st.ledger := by
  induction records with
  | nil => intro st; exact ⟨st, rfl, rfl, rfl⟩
  | cons r rs ih =>
    intro st
    obtain ⟨stm, hm, hr, hl⟩ := processRecord_dry ctx st r hdry
    obtain ⟨st2, h2, hr2, hl2⟩ := ih stm
    refine ⟨st2, ?_, hr2.trans hr, hl2.trans hl⟩
    simp only [processTableRecords, hm]
    exact h2

theorem pullTables_dry_db (cfg : PullConfig) (hdry : cfg.applyMode = false) :
    ∀ (tables : List (String × List (String × String))) (db : DB)
      (s : PullSummary) (c : List PullChange),
      (∀ p ∈ tables, (lookupA db.tables p.1).isSome) →
      resultDb (pullTables cfg db s c tables) = db := by
  intro tables
  induction tables with
  | nil => intro db s c hp; rfl
  | cons t rest ih =>
    obtain ⟨tn, fm⟩ := t
    intro db s c hp
    simp only [pullTables]
    split
    · rfl
    · split
      · rfl
      · rename_i extIdField heq
        obtain ⟨st2, h2, hr, hl⟩ := processTableRecords_dry
          ⟨tn, extIdField, fm, (lookupA cfg.schemaTables tn).getD [], cfg.applyMode,
            cfg.acceptRemote, cfg.now⟩ hdry
          (cfg.recordsFor ((lookupA cfg.tableIds tn).getD ""))
          ⟨(lookupA db.tables tn).getD [], db.ledger, s, c⟩
        simp only [h2]
        obtain ⟨rows0, hrows0⟩ := Option.isSome_iff_exists.mp (hp (tn, fm) (by simp))
        have hr2 : st2.rows = (lookupA db.tables tn).getD [] := hr
        have hl2 : st2.ledger = db.ledger := hl
        have hrw : upsertA db.tables tn st2.rows = db.tables := by
          rw [hr2]
          simp only [hrows0, Option.getD_some]
          exact upsertA_lookupA_eq db.tables tn rows0 hrows0
        rw [hrw, hl2]
        exact ih db st2.summary st2.changes
          (fun p hpmem => hp p (List.mem_cons_of_mem _ hpmem))

theorem processRecord_mode_parity (tn eif : String) (fm : List (String × String))
    (sf : List (String × FieldSpec)) (ar : List PyVal) (nw : String)
    (st : RunState) (r : AirtableRecord) (st1 st2 : RunState)
    (h1 : processRecord ⟨tn, eif, fm, sf, false, ar, nw⟩ st r = .ok st1)
    (h2 : processRecord ⟨tn, eif, fm, sf, true, ar, nw⟩ st r = .ok st2) :
    st1.summary = st2.summary ∧ st1.changes = st2.changes ∧
      st1.rows = st.rows ∧ st1.ledger = st.ledger := by
  simp only [processRecord] at h1 h2
  set eid := (lookupA r.fields "ExternalId").getD PyVal.null with heid
  set lrv := fetch_by_field st.rows eif eid with hlrv
  set msv := lookupA st.ledger (tn, eid) with hmsv
  set cfv := diff_fields lrv r.fields fm sf with hcfv
  set d := decide_pull_action lrv msv cfv none with hd
  by_cases c1 : truthy eid = false
  · simp only [c1, if_true] at h1 h2
    simp only [Except.ok.injEq] at h1 h2
    subst h1
    subst h2
    exact ⟨rfl, rfl, rfl, rfl⟩
  · rw [if_neg c1] at h1 h2
    by_cases c2 : d.action = "skip"
    · rw [if_pos c2] at h1 h2
      simp only [Except.ok.injEq] at h1 h2
      subst h1
      subst h2
      exact ⟨rfl, rfl, rfl, rfl⟩
    · rw [if_neg c2] at h1 h2
      by_cases c3 : d.action = "conflict" ∧ eid ∈ ar
      · rw [if_pos c3] at h1 h2
        dsimp only at h1 h2
        rw [if_neg (by decide : ¬("apply" : String) = "conflict")] at h1 h2
        rw [if_neg (by decide : ¬(false = true))] at h1
        simp only [if_true] at h2
        rw [if_neg (by decide : ¬("apply" : String) = "create")] at h1 h2
        cases hu : update_local st.rows eif fm r.fields sf nw with
        | error e =>
          rw [hu] at h2
          exact Except.noConfusion h2
        | ok rows2 =>
          rw [hu] at h2
          simp only [if_true, if_false, Except.ok.injEq] at h1 h2
          subst h1
          subst h2
          exact ⟨rfl, rfl, rfl, rfl⟩
      · rw [if_neg c3] at h1 h2
        by_cases c4 : d.action = "conflict"
        · rw [if_pos c4] at h1 h2
          simp only [Except.ok.injEq] at h1 h2
          subst h1
          subst h2
          exact ⟨rfl, rfl, rfl, rfl⟩
        · rw [if_neg c4] at h1 h2
          rw [if_neg (by decide : ¬(false = true))] at h1
          simp only [if_true] at h2
          by_cases c5 : d.action = "create"
          · rw [if_pos c5] at h1 h2
            cases hi : insert_local st.rows fm r.fields sf nw with
            | error e =>
              rw [hi] at h2
              exact Except.noConfusion h2
            | ok rows2 =>
              rw [hi] at h2
              simp only [if_true, if_false, Except.ok.injEq] at h1 h2
              subst h1
              subst h2
              exact ⟨rfl, rfl, rfl, rfl⟩
          · rw [if_neg c5] at h1 h2
            by_cases c6 : d.action = "apply"
            · rw [if_pos c6] at h1 h2
              cases hu : update_local st.rows eif fm r.fields sf nw with
              | error e =>
                rw [hu] at h2
                exact Except.noConfusion h2
              | ok rows2 =>
                rw [hu] at h2
                simp only [if_true, if_false, Except.ok.injEq] at h1 h2
                subst h1
                subst h2
                exact ⟨rfl, rfl, rfl, rfl⟩
            · rw [if_neg c6] at h1 h2
              simp only [Except.ok.injEq] at h1 h2
              subst h1
              subst h2
              exact ⟨rfl, rfl, rfl, rfl⟩

/-- C8: a dry run leaves every business table and the ledger untouched (the
resulting database equals the input database), while the per-record
summary and change-log bookkeeping is computed exactly as in apply mode:
from the same state, a dry-run step and a successful apply-mode step over
the same record produce the same summary and the same change list. -/
theorem c8_dry_run (cfg : PullConfig) (db : DB)
    (hdry : cfg.applyMode = false)
    (hpresent : ∀ p ∈ cfg.mappingTables, (lookupA db.tables p.1).isSome) :
    resultDb (pull_records cfg db) = db
  ∧ (∀ (tn eif : String) (fm : List (String × String)) (sf : List (String × FieldSpec))
      (ar : List PyVal) (nw : String) (st : RunState) (r : AirtableRecord)
      (st1 st2 : RunState),
      processRecord ⟨tn, eif, fm, sf, false, ar, nw⟩ st r = .ok st1 →
      processRecord ⟨tn, eif, fm, sf, true, ar, nw⟩ st r = .ok st2 →
      st1.summary = st2.summary ∧ st1.changes = st2.changes ∧
        st1.rows = st.rows ∧ st1.ledger = st.ledger) :=
  ⟨pullTables_dry_db cfg hdry cfg.mappingTables db ⟨0, 0, 0, 0, 0, 0⟩ [] hpresent,
   fun tn eif fm sf ar nw st r st1 st2 h1 h2 =>
     processRecord_mode_parity tn eif fm sf ar nw st r st1 st2 h1 h2⟩

theorem c8_dry_run_witness :
    resultDb (pull_records c8cfg c5db) = c5db :=
  (c8_dry_run c8cfg c5db rfl (by decide)).1

/-- C5 counterexample: the first record of the run commits a row when pulled
alone, but when a later record of the same table fails mid-run the whole
table rolls back and the run ends with the original database: the earlier
record of the same run is not committed. -/
theorem c5_counterexample :
    pull_records c5cfg c5db = .err (.integrityError "NOT NULL constraint failed") c5db
  ∧ pull_records c5cfgFirst c5db =
      .ok ⟨1, 0, 0, 0, 1, 0⟩ [⟨"widgets", .str "w1", "create", ["widget_id", "name"], none⟩]
        c5dbAfterFirst
  ∧ lookupA c5db.tables "widgets" = some []
  ∧ lookupA c5dbAfterFirst.tables "widgets" = some [c5rowAfter] := by
  refine ⟨by decide, by decide, by decide, by decide⟩

theorem pullTables_err_prefix (cfg : PullConfig) :
    ∀ (tables : List (String × List (String × String))) (db : DB) (s : PullSummary)
      (c : List PullChange) (e : PullErrM) (dbf : DB),
      pullTables cfg db s c tables = .err e dbf →
      ∃ done rest s2 c2, tables = done ++ rest ∧
        pullTables cfg db s c done = .ok s2 c2 dbf := by
  intro tables
  induction tables with
  | nil =>
    intro db s c e dbf h
    exact PullOutcomeM.noConfusion h
  | cons t rest ih =>
    obtain ⟨tn, fm⟩ := t
    intro db s c e dbf h
    simp only [pullTables] at h
    split at h
    · simp only [PullOutcomeM.err.injEq] at h
      refine ⟨[], (tn, fm) :: rest, s, c, rfl, ?_⟩
      simp only [pullTables]
      rw [h.2]
    · split at h
      · simp only [PullOutcomeM.err.injEq] at h
        refine ⟨[], (tn, fm) :: rest, s, c, rfl, ?_⟩
        simp only [pullTables]
        rw [h.2]
      · rename_i hid hfind extIdField heqf
        split at h
        · rename_i st heq
          obtain ⟨done2, rest2, s2, c2, hsplit, hrun⟩ := ih _ _ _ _ _ h
          refine ⟨(tn, fm) :: done2, rest2, s2, c2, by rw [hsplit]; rfl, ?_⟩
          simp only [pullTables]
          rw [if_neg hid]
          simp only [heqf, heq]
          exact hrun
        · rename_i e2 heq
          simp only [PullOutcomeM.err.injEq] at h
          refine ⟨[], (tn, fm) :: rest, s, c, rfl, ?_⟩
          simp only [pullTables]
          rw [h.2]

/-- C5 (amended): local mutations run in one transaction per table, not per
record: when a pull run raises, the database it leaves behind is exactly
the database produced by a successful run over a prefix of the mapped
tables, so every fully processed earlier table stays committed while all
mutations of the failing table, including records applied earlier within
that same table, are rolled back together with its ledger writes. -/
theorem c5_table_transaction (cfg : PullConfig) (db : DB) (e : PullErrM) (dbf : DB)
    (h : pull_records cfg db = .err e dbf) :
    ∃ done rest s2 c2, cfg.mappingTables = done ++ rest ∧
      pullTables cfg db ⟨0, 0, 0, 0, 0, 0⟩ [] done = .ok s2 c2 dbf := by
  unfold pull_records at h
  exact pullTables_err_prefix cfg cfg.mappingTables db ⟨0, 0, 0, 0, 0, 0⟩ [] e dbf h

theorem c5_table_transaction_witness :
    ∃ done rest s2 c2, c5cfg.mappingTables = done ++ rest ∧
      pullTables c5cfg c5db ⟨0, 0, 0, 0, 0, 0⟩ [] done = .ok s2 c2 c5db :=
  c5_table_transaction c5cfg c5db (.integrityError "NOT NULL constraint failed") c5db
    (by decide)

end LeadOps
